import Mathlib

/-!
Verification of the matching and deduplication pipeline of `scan_tenders.py`.

The script is shallowly embedded: Python values (JSON-shaped data) become the
inductive type `Val`, Python dicts become association lists, the persisted
`sent_ids.json` file becomes `FileState`, and the effectful parts of `main`
(HTTP fetches, SMTP delivery) become explicit parameters (`fetch`, `emailTo`,
`smtpOk`).  Machine-level caveats: Python `str.lower` / `str.strip` are
modelled on ASCII (`Char.toLower`, `Char.isWhitespace`), and numbers are
modelled as integers; none of the verified properties depend on non-ASCII
text or floats.
-/

/-- Python/JSON values as they occur in API records and in the persisted
state file: `None`, strings, numbers (ints), booleans, lists, and dicts
(association lists in insertion order, keys unique). -/
inductive Val where
  | vnone : Val
  | vstr : String → Val
  | vint : Int → Val
  | vbool : Bool → Val
  | vlist : List Val → Val
  | vdict : List (String × Val) → Val

/-- Python `sep.join(ss)`. -/
def pyJoin (sep : String) : List String → String
  | [] => ""
  | [s] => s
  | s :: ss => s ++ sep ++ pyJoin sep ss

/-- Python `s.lower()` (ASCII model). -/
def pyLower (s : String) : String := String.mk (s.data.map Char.toLower)

/-- Python `s.strip()`: drop whitespace from both ends. -/
def pyStrip (s : String) : String :=
  String.mk (((s.data.dropWhile Char.isWhitespace).reverse.dropWhile Char.isWhitespace).reverse)

/-- Python truthiness of a value (`if x:`). -/
def truthy : Val → Bool
  | .vnone => false
  | .vstr s => s != ""
  | .vint n => n != 0
  | .vbool b => b
  | .vlist vs => !vs.isEmpty
  | .vdict kvs => !kvs.isEmpty

/-- Python `a or b` on values: `a` if truthy, else `b`. -/
def pyOr (a b : Val) : Val := if truthy a then a else b

/-- Dict lookup `d[k]` / `d.get(k)` on the association list (first match). -/
def dictGet (kvs : List (String × Val)) (k : String) : Option Val :=
  (kvs.find? (fun p => p.1 = k)).map Prod.snd

/-- Test `k in item` followed by `item.get(k)`: `none` when `item` is not a dict
or lacks the key. -/
def keyLookup : Val → String → Option Val
  | .vdict kvs, k => dictGet kvs k
  | _, _ => none

/-- Python `item.get(k)` with its `None` default. -/
def vget (item : Val) (k : String) : Val := (keyLookup item k).getD .vnone

/-- The payload-shape keys probed by `normalize_text` (line 110). -/
def specialKeys : List String := ["text", "value", "label", "title", "summary"]

/-- The loop of lines 110-112: first key of `specialKeys` present in the dict
with a string value. -/
def findSpecial (kvs : List (String × Val)) : List String → Option String
  | [] => none
  | k :: ks =>
      match dictGet kvs k with
      | some (.vstr s) => some s
      | _ => findSpecial kvs ks

mutual
/-- Embeds `normalize_text` (lines 99-114): flatten a heterogeneous value into a
searchable string.  Dicts first try the `specialKeys` shortcut, otherwise
join the normalized values with single spaces. -/
def normalize_text : Val → String
  | .vnone => ""
  | .vstr s => s
  | .vint n => toString n
  | .vbool b => if b then "True" else "False"
  | .vlist vs => pyJoin " " (normList vs)
  | .vdict kvs =>
      match findSpecial kvs specialKeys with
      | some s => s
      | none => pyJoin " " (normVals kvs)

/-- Map of `normalize_text` over list elements (the generator on line 107). -/
def normList : List Val → List String
  | [] => []
  | v :: vs => normalize_text v :: normList vs

/-- Map of `normalize_text` over dict values (the generator on line 113). -/
def normVals : List (String × Val) → List String
  | [] => []
  | (_, v) :: kvs => normalize_text v :: normVals kvs
end

mutual
/-- The primitive leaves of a value, in order, each in its string form:
what a lossless normalizer would have to keep. -/
def leaves : Val → List String
  | .vnone => []
  | .vstr s => [s]
  | .vint n => [toString n]
  | .vbool b => [if b then "True" else "False"]
  | .vlist vs => leavesList vs
  | .vdict kvs => leavesVals kvs

/-- Leaves of the elements of a list, in order. -/
def leavesList : List Val → List String
  | [] => []
  | v :: vs => leaves v ++ leavesList vs

/-- Leaves of the values of a dict, in order. -/
def leavesVals : List (String × Val) → List String
  | [] => []
  | (_, v) :: kvs => leaves v ++ leavesVals kvs
end

mutual
/-- A value in which no dict triggers the `specialKeys` shortcut of
`normalize_text`, so every dict takes the join-all-values branch. -/
def plainVal : Val → Bool
  | .vnone => true
  | .vstr _ => true
  | .vint _ => true
  | .vbool _ => true
  | .vlist vs => plainList vs
  | .vdict kvs => (findSpecial kvs specialKeys).isNone && plainVals kvs

/-- Conjunction of `plainVal` over the elements of a list. -/
def plainList : List Val → Bool
  | [] => true
  | v :: vs => plainVal v && plainList vs

/-- Conjunction of `plainVal` over the values of a dict. -/
def plainVals : List (String × Val) → Bool
  | [] => true
  | (_, v) :: kvs => plainVal v && plainVals kvs
end

mutual
/-- Python `repr(x)` for JSON-shaped values (string quoting simplified to
plain single quotes; the verified properties never inspect nested reprs). -/
def pyRepr : Val → String
  | .vnone => "None"
  | .vstr s => String.mk (Char.ofNat 39 :: s.data ++ [Char.ofNat 39])
  | .vint n => toString n
  | .vbool b => if b then "True" else "False"
  | .vlist vs => "[" ++ pyJoin ", " (reprList vs) ++ "]"
  | .vdict kvs => "\x7b" ++ pyJoin ", " (reprVals kvs) ++ "\x7d"

/-- Map of `pyRepr` over list elements. -/
def reprList : List Val → List String
  | [] => []
  | v :: vs => pyRepr v :: reprList vs

/-- Repr pairs `key: value` of a dict. -/
def reprVals : List (String × Val) → List String
  | [] => []
  | (k, v) :: kvs =>
      (String.mk (Char.ofNat 39 :: k.data ++ [Char.ofNat 39]) ++ ": " ++ pyRepr v) :: reprVals kvs
end

/-- Python `str(x)`: identity on strings, `repr`-style elsewhere. -/
def pyStr : Val → String
  | .vstr s => s
  | .vnone => "None"
  | .vint n => toString n
  | .vbool b => if b then "True" else "False"
  | .vlist vs => "[" ++ pyJoin ", " (reprList vs) ++ "]"
  | .vdict kvs => "\x7b" ++ pyJoin ", " (reprVals kvs) ++ "\x7d"

/-- Embeds `KEYWORDS` (lines 25-40), verbatim. -/
def KEYWORDS : List String := [
  "photo", "photography", "photographer", "photoshoot", "shooting",
  "video", "videography", "videographer", "filming", "film production",
  "video production", "post-production", "post production", "editing",
  "motion graphics", "animation", "subtitling", "voice-over", "voice over",
  "audiovisual", "audio-visual", "audio visual", "visual content",
  "content creation", "creative services", "creative agency", "creative support",
  "visual identity", "branding", "brand assets", "graphic design", "design services",
  "communication campaign", "campaign", "awareness campaign",
  "social media content", "social media assets", "media content",
  "promotional video", "explainer video",
  "framework contract", "service contract", "communication services", "media services"]

/-- Embeds `CPV_PREFIXES` (lines 43-48), verbatim. -/
def CPV_PREFIXES : List String := ["7996", "921", "923", "798"]

/-- Substring test on character lists: Python `needle in hay`. -/
def isSubChars (needle : List Char) : List Char → Bool
  | [] => needle.isEmpty
  | c :: cs => needle.isPrefixOf (c :: cs) || isSubChars needle cs

/-- Python `needle in hay` on strings. -/
def strContains (hay needle : String) : Bool := isSubChars needle.data hay.data

/-- Embeds `kw_match` (lines 117-119): case-insensitive substring test of every
configured keyword against the text; plain positive matching, no negative
patterns exist in this script. -/
def kw_match (text : String) : Bool :=
  let t := pyLower text
  KEYWORDS.any (fun k => strContains t (pyLower k))

/-- The candidate field names of `extract_cpv` (line 126). -/
def cpvKeys : List String := ["cpv", "cpvCode", "cpvCodes", "mainCpv", "cpvMain"]

/-- Python `re.sub(r"\D", "", s)`: keep only the digits of a string. -/
def onlyDigits (s : String) : String := String.mk (s.data.filter Char.isDigit)

/-- Embeds `extract_cpv` (lines 122-152): collect candidate code values from the
top level and from a `metadata` sub-dict, flatten through `normalize_text`,
strip non-digits, and drop entries that became empty. -/
def extract_cpv (item : Val) : List String :=
  let topCands := cpvKeys.filterMap (fun k => keyLookup item k)
  let md := pyOr (vget item "metadata") (.vdict [])
  let mdCands :=
    match md with
    | .vdict kvs => cpvKeys.filterMap (fun k => dictGet kvs k)
    | _ => []
  let out := (topCands ++ mdCands).flatMap (fun c =>
    match c with
    | .vnone => []
    | .vlist vs => vs.map normalize_text
    | c => [normalize_text c])
  out.filterMap (fun s =>
    let digits := onlyDigits s
    if digits = "" then none else some digits)

/-- Embeds `cpv_match` (lines 155-159): true when some extracted digit-only code
starts with some configured prefix; an empty code list never matches. -/
def cpv_match (item : Val) : Bool :=
  let cpvs := extract_cpv item
  if cpvs = [] then false
  else cpvs.any (fun code => CPV_PREFIXES.any (fun pref => pref.data.isPrefixOf code.data))

/-- The fallback paths of `best_title` (lines 164-171). -/
def TITLE_PATHS : List (List String) :=
  [["title"], ["summary"], ["reference"],
   ["metadata", "callTitle"], ["metadata", "title"], ["metadata", "identifier"]]

/-- The inner walk of `best_title` (lines 172-179): follow a key path
through nested dicts. -/
def walkPath : Val → List String → Option Val
  | cur, [] => some cur
  | .vdict kvs, p :: ps =>
      match dictGet kvs p with
      | some v => walkPath v ps
      | none => none
  | _, _ :: _ => none

/-- Embeds `best_title` (lines 162-184): first path whose normalized, stripped
value is nonempty, else `"(no title)"`. -/
def best_title (item : Val) : String :=
  match TITLE_PATHS.findSome? (fun path =>
      match walkPath item path with
      | some cur =>
          let s := pyStrip (normalize_text cur)
          if s = "" then none else some s
      | none => none) with
  | some s => s
  | none => "(no title)"

/-- Embeds `best_url` (lines 187-196): first truthy `url`/`link` value at the top
level, else inside `metadata`, else the empty string. -/
def best_url (item : Val) : String :=
  match ["url", "link"].findSome? (fun k =>
      match keyLookup item k with
      | some v => if truthy v then some (pyStrip (normalize_text v)) else none
      | none => none) with
  | some s => s
  | none =>
      let md := pyOr (vget item "metadata") (.vdict [])
      match md with
      | .vdict kvs =>
          match ["url", "link"].findSome? (fun k =>
              match dictGet kvs k with
              | some v => if truthy v then some (pyStrip (normalize_text v)) else none
              | none => none) with
          | some s => s
          | none => ""
      | _ => ""

/-- Embeds `best_blob` (lines 199-205): title, summary, content and stringified
metadata, nonempty parts joined with newlines. -/
def best_blob (item : Val) : String :=
  pyJoin "\n" ([best_title item,
                normalize_text (vget item "summary"),
                normalize_text (vget item "content"),
                normalize_text (vget item "metadata")].filter (fun p => p != ""))

/-- The persisted `sent_ids.json` as `load_seen` (lines 81-92) can find it:
absent, unparsable (`json.loads` raises), whitespace-only, or a parsed JSON
document. -/
inductive FileState where
  | absent
  | corrupt
  | blank
  | doc (v : Val)

/-- Embeds `load_seen` (lines 81-92): a JSON list becomes the set of the `str` of
its elements; everything else (absent, corrupt, blank, non-list JSON) is the
empty set. -/
def load_seen : FileState → Finset String
  | .absent => ∅
  | .corrupt => ∅
  | .blank => ∅
  | .doc v =>
      match v with
      | .vlist xs => (xs.map pyStr).toFinset
      | _ => ∅

/-- Embeds `save_seen` (lines 95-96): write the set as a sorted JSON list of
strings (the `json.dumps`/`json.loads` pair is modelled as the identity on
JSON documents). -/
def save_seen (seen : Finset String) : FileState :=
  .doc (.vlist ((seen.sort (· ≤ ·)).map .vstr))

/-- Embeds `MAX_PAGES` (line 52). -/
def MAX_PAGES : Nat := 40

/-- One entry of `all_matches`/`new_matches` (lines 312-319). -/
structure Row where
  id : String
  title : String
  url : String
  cpv : List String
  kw : Bool
  cpv_hit : Bool

/-- The identifier derivation of line 297:
`normalize_text(item.get("id") or item.get("reference") or item.get("url")).strip()`. -/
def itemId (item : Val) : String :=
  pyStrip (normalize_text (pyOr (vget item "id") (pyOr (vget item "reference") (vget item "url"))))

/-- The `row` dict built on lines 312-319 for a matching item. -/
def rowOf (item : Val) : Row :=
  { id := itemId item
    title := best_title item
    url := best_url item
    cpv := extract_cpv item
    kw := kw_match (best_blob item)
    cpv_hit := cpv_match item }

/-- The per-item body of the page loop (lines 296-323), over a list of
items: returns `(all_matches, new_matches)`.  The in-memory `seen` set is
only read here, never written, exactly as in the source. -/
def processItems (seen : Finset String) (ignoreSeen : Bool) : List Val → List Row × List Row
  | [] => ([], [])
  | item :: rest =>
      let t := processItems seen ignoreSeen rest
      if itemId item = "" then t
      else
        if !(kw_match (best_blob item) || cpv_match item) then t
        else
          let row := rowOf item
          (row :: t.1,
           if ignoreSeen || decide (itemId item ∉ seen) then row :: t.2 else t.2)

/-- Line 290: `data.get("results") or data.get("hits") or []`. -/
def pageItems (data : Val) : Val :=
  pyOr (vget data "results") (pyOr (vget data "hits") (.vlist []))

/-- Iteration over the extracted items value (`for item in items`): a list
yields its elements, a dict its keys; other types cannot be iterated by the
loop and do not occur in API responses. -/
def valItems : Val → List Val
  | .vlist vs => vs
  | .vdict kvs => kvs.map (fun p => Val.vstr p.1)
  | _ => []

/-- The pagination loop of lines 288-294 and 325, with `fetch` standing for
`fetch_page` (lines 208-244): it returns the parsed JSON `data` of a page,
or an error when the request fails after the transport-level retries
(non-2xx raises a `RuntimeError`, line 243, and `main` has no handler).
The loop collects the item lists of the processed pages in order; a falsy
items value breaks; errors propagate out of the loop. -/
def scanPages (fetch : Nat → Except Unit Val) : Nat → Nat → Except Unit (List (List Val))
  | _, 0 => .ok []
  | page, fuel + 1 =>
      match fetch page with
      | .error e => .error e
      | .ok data =>
          let items := pageItems data
          if truthy items = false then .ok []
          else
            match scanPages fetch (page + 1) fuel with
            | .error e => .error e
            | .ok rest => .ok (valItems items :: rest)

/-- Embeds `send_email` (lines 247-278).  `emailTo` is `EMAIL_TO` after strip
(`none` for unset or blank, in which case the function logs and returns
without sending); `smtpOk` is whether the SMTP session (env lookups,
`starttls`, `login`, `send_message`) succeeds; its failure raises.  Returns
whether the items were actually delivered. -/
def send_email (emailTo : Option String) (smtpOk : Bool) (_items : List Row) : Except Unit Bool :=
  match emailTo with
  | none => .ok false
  | some _ => if smtpOk then .ok true else .error ()

/-- Result of one run of `main`: the run either raised (`result = .error`)
or completed with the list handed to `send_email` (empty when no email was
attempted) and whether it was delivered; `finalFile` is the persisted state
after the run (unchanged unless `save_seen` executed). -/
structure RunOutcome where
  result : Except Unit (List Row × Bool)
  finalFile : FileState

/-- Embeds `main` (lines 281-352).  `file` is the persisted state on disk,
`ignoreSeen`/`forceAll` the `IGNORE_SEEN`/`FORCE_EMAIL_ALL` env flags,
`fetch` the page oracle, `emailTo`/`smtpOk` the notifier's environment.
Page items are processed in fetch order (concatenating the per-page lists
is equivalent to the source's interleaved loop because the loop body is
pure per item). -/
def mainRun (file : FileState) (ignoreSeen forceAll : Bool)
    (fetch : Nat → Except Unit Val) (emailTo : Option String) (smtpOk : Bool) : RunOutcome :=
  let seen := if ignoreSeen then (∅ : Finset String) else load_seen file
  match scanPages fetch 1 MAX_PAGES with
  | .error _ => ⟨.error (), file⟩
  | .ok pages =>
      let p := processItems seen ignoreSeen pages.flatten
      if forceAll then
        if p.1.isEmpty then ⟨.ok ([], false), file⟩
        else
          match send_email emailTo smtpOk p.1 with
          | .error _ => ⟨.error (), file⟩
          | .ok delivered => ⟨.ok (p.1, delivered), file⟩
      else
        if p.2.isEmpty then ⟨.ok ([], false), file⟩
        else
          match send_email emailTo smtpOk p.2 with
          | .error _ => ⟨.error (), file⟩
          | .ok delivered =>
              ⟨.ok (p.2, delivered), save_seen (seen ∪ (p.2.map Row.id).toFinset)⟩

/-- A fetch oracle whose page `n` parses to `{"results": f n}`: the response
shape the API returns on success. -/
def pagesFetch (f : Nat → List Val) : Nat → Except Unit Val :=
  fun n => .ok (.vdict [("results", .vlist (f n))])

/-- A page-1 success followed by a page-2 network/HTTP failure, used to
exhibit the run aborting. -/
def c2fetch : Nat → Except Unit Val :=
  fun n => if n = 1
    then .ok (.vdict [("results",
        .vlist [.vdict [("id", .vstr "T1"), ("title", .vstr "Video production services")]])])
    else .error ()

/-- The matching record of the ignore-seen counterexample run. -/
def c3item : Val := .vdict [("id", .vstr "NEW"), ("title", .vstr "Photography services")]

/-- One page carrying `c3item`, then an empty page. -/
def c3fetch : Nat → Except Unit Val :=
  fun n => if n = 1 then .ok (.vdict [("results", .vlist [c3item])]) else .ok (.vdict [])

/-- The persisted state before the ignore-seen counterexample run. -/
def c3file : FileState := .doc (.vlist [.vstr "OLD"])

/-- The matching record of the skipped-notification counterexample run. -/
def c5item : Val := .vdict [("id", .vstr "A1"), ("title", .vstr "Photography services tender")]

/-- One page carrying `c5item`, then an empty page. -/
def c5fetch : Nat → Except Unit Val :=
  fun n => if n = 1 then .ok (.vdict [("results", .vlist [c5item])]) else .ok (.vdict [])

/-- The duplicated matching record of the intra-run duplicate witness run. -/
def c10item : Val :=
  .vdict [("id", .vstr "D1"), ("title", .vstr "Promotional video for campaign")]

/-- Characterization of the substring test: `isSubChars n h` is true exactly
when `n` occurs as a contiguous infix of `h`. -/
theorem isSubChars_iff (n : List Char) : ∀ h : List Char, isSubChars n h = true ↔ n <:+: h := by
  intro h
  induction h with
  | nil => simp [isSubChars, List.isEmpty_iff]
  | cons c cs ih =>
      simp [isSubChars, List.infix_cons_iff, ih, List.isPrefixOf_iff_prefix]

/-- Saving any set and loading it back returns the same set: `str` is the
identity on the strings `save_seen` writes, and sorting does not change the
underlying set. -/
theorem load_save (s : Finset String) : load_seen (save_seen s) = s := by
  simp [load_seen, save_seen, List.map_map, Function.comp_def, pyStr, Finset.sort_toFinset]

/-- The first string of a nonempty join is an infix of the join. -/
theorem head_contained_pyJoin (sep x : String) (xs : List String) :
    x.data <:+: (pyJoin sep (x :: xs)).data := by
  cases xs with
  | nil => exact List.infix_rfl
  | cons y ys =>
      show x.data <:+: (x ++ sep ++ pyJoin sep (y :: ys)).data
      rw [String.data_append, String.data_append, List.append_assoc]
      exact (List.prefix_append _ _).isInfix

/-- An infix of the join of the tail is an infix of the whole join. -/
theorem tail_contained_pyJoin (sep x : String) (xs : List String) (l : List Char)
    (h : l <:+: (pyJoin sep xs).data) : l <:+: (pyJoin sep (x :: xs)).data := by
  cases xs with
  | nil =>
      have h0 : l = [] := by simpa [pyJoin, List.infix_nil] using h
      subst h0
      exact List.nil_infix
  | cons y ys =>
      show l <:+: (x ++ sep ++ pyJoin sep (y :: ys)).data
      rw [String.data_append, String.data_append]
      exact h.trans (List.suffix_append _ _).isInfix

mutual
/-- On shortcut-free values, every primitive leaf survives into the output
of `normalize_text` as a contiguous substring. -/
theorem leaf_contained : ∀ v : Val, plainVal v = true →
    ∀ l ∈ leaves v, l.data <:+: (normalize_text v).data
  | .vnone => by intro _ l hl; simp [leaves] at hl
  | .vstr s => by
      intro _ l hl
      simp [leaves] at hl
      subst hl
      exact List.infix_rfl
  | .vint n => by
      intro _ l hl
      simp [leaves] at hl
      subst hl
      exact List.infix_rfl
  | .vbool b => by
      intro _ l hl
      simp [leaves] at hl
      subst hl
      exact List.infix_rfl
  | .vlist vs => by
      intro h l hl
      have h' : plainList vs = true := by simpa [plainVal] using h
      have hl' : l ∈ leavesList vs := by simpa [leaves] using hl
      simpa [normalize_text] using leafList_contained vs h' l hl'
  | .vdict kvs => by
      intro h l hl
      rw [plainVal, Bool.and_eq_true] at h
      have h1 : findSpecial kvs specialKeys = none := by
        simpa [Option.isNone_iff_eq_none] using h.1
      have hl' : l ∈ leavesVals kvs := by simpa [leaves] using hl
      have := leafVals_contained kvs h.2 l hl'
      simpa [normalize_text, h1] using this

/-- Leaf containment for the elements of a list. -/
theorem leafList_contained : ∀ vs : List Val, plainList vs = true →
    ∀ l ∈ leavesList vs, l.data <:+: (pyJoin " " (normList vs)).data
  | [] => by intro _ l hl; simp [leavesList] at hl
  | v :: vs => by
      intro h l hl
      rw [plainList, Bool.and_eq_true] at h
      rw [leavesList, List.mem_append] at hl
      rw [normList]
      rcases hl with hl | hl
      · exact (leaf_contained v h.1 l hl).trans (head_contained_pyJoin " " _ _)
      · exact tail_contained_pyJoin " " _ _ _ (leafList_contained vs h.2 l hl)

/-- Leaf containment for the values of a dict. -/
theorem leafVals_contained : ∀ kvs : List (String × Val), plainVals kvs = true →
    ∀ l ∈ leavesVals kvs, l.data <:+: (pyJoin " " (normVals kvs)).data
  | [] => by intro _ l hl; simp [leavesVals] at hl
  | (k, v) :: kvs => by
      intro h l hl
      rw [plainVals, Bool.and_eq_true] at h
      rw [leavesVals, List.mem_append] at hl
      rw [normVals]
      rcases hl with hl | hl
      · exact (leaf_contained v h.1 l hl).trans (head_contained_pyJoin " " _ _)
      · exact tail_contained_pyJoin " " _ _ _ (leafVals_contained kvs h.2 l hl)
end

/-- Unfolding of `scanPages` on a page whose fetch succeeds. -/
theorem scanPages_ok_step (fetch : Nat → Except Unit Val) (page fuel : Nat) (d : Val)
    (hf : fetch page = .ok d) :
    scanPages fetch page (fuel + 1)
      = if truthy (pageItems d) = false then .ok []
        else
          match scanPages fetch (page + 1) fuel with
          | .error e => .error e
          | .ok rest => .ok (valItems (pageItems d) :: rest) := by
  rw [scanPages, hf]

/-- Unfolding of `scanPages` on a page whose fetch raises. -/
theorem scanPages_err_step (fetch : Nat → Except Unit Val) (page fuel : Nat)
    (hf : fetch page = .error ()) :
    scanPages fetch page (fuel + 1) = .error () := by
  rw [scanPages, hf]

/-- A successful scan visits at most `fuel` pages. -/
theorem scanPages_len : ∀ (fuel start : Nat) (fetch : Nat → Except Unit Val)
    (l : List (List Val)), scanPages fetch start fuel = .ok l → l.length ≤ fuel := by
  intro fuel
  induction fuel with
  | zero =>
      intro start fetch l h
      rw [scanPages] at h
      cases h
      simp
  | succ n ih =>
      intro start fetch l h
      cases hf : fetch start with
      | error e =>
          cases e
          rw [scanPages_err_step fetch start n hf] at h
          cases h
      | ok data =>
          rw [scanPages_ok_step fetch start n data hf] at h
          by_cases ht : truthy (pageItems data) = false
          · rw [if_pos ht] at h
            cases h
            simp
          · rw [if_neg ht] at h
            cases hrec : scanPages fetch (start + 1) n with
            | error e => rw [hrec] at h; cases h
            | ok rest =>
                rw [hrec] at h
                cases h
                have := ih (start + 1) fetch rest hrec
                simpa using this

/-- When page `start + k` fails after `k` non-empty successful pages, the
scan raises. -/
theorem scanPages_error (k : Nat) :
    ∀ (fuel start : Nat) (fetch : Nat → Except Unit Val),
      k < fuel →
      (∀ i, i < k → ∃ d, fetch (start + i) = .ok d ∧ truthy (pageItems d) = true) →
      fetch (start + k) = .error () →
      scanPages fetch start fuel = .error () := by
  induction k with
  | zero =>
      intro fuel start fetch hk hok herr
      obtain ⟨m, rfl⟩ : ∃ m, fuel = m + 1 := ⟨fuel - 1, by omega⟩
      rw [Nat.add_zero] at herr
      exact scanPages_err_step fetch start m herr
  | succ k ih =>
      intro fuel start fetch hk hok herr
      obtain ⟨m, rfl⟩ : ∃ m, fuel = m + 1 := ⟨fuel - 1, by omega⟩
      obtain ⟨d, hd, ht⟩ := hok 0 (Nat.succ_pos k)
      rw [Nat.add_zero] at hd
      have hrec : scanPages fetch (start + 1) m = .error () := by
        apply ih m (start + 1) fetch (by omega)
        · intro i hi
          obtain ⟨e, he, hte⟩ := hok (i + 1) (by omega)
          refine ⟨e, ?_, hte⟩
          rw [← he]
          congr 1
          omega
        · rw [← herr]
          congr 1
          omega
      rw [scanPages_ok_step fetch start m d hd]
      simp [ht, hrec]

/-- The item loop distributes over concatenation of the item sequence; the
loaded seen set is consulted unchanged throughout. -/
theorem processItems_append (seen : Finset String) (ig : Bool) :
    ∀ xs ys, processItems seen ig (xs ++ ys)
      = ((processItems seen ig xs).1 ++ (processItems seen ig ys).1,
         (processItems seen ig xs).2 ++ (processItems seen ig ys).2) := by
  intro xs ys
  induction xs with
  | nil => simp [processItems]
  | cons item rest ih =>
      by_cases h1 : itemId item = "" <;>
      by_cases h2 : (kw_match (best_blob item) || cpv_match item) = true <;>
      by_cases h3 : ig = true ∨ itemId item ∉ seen <;>
      simp [processItems, ih, h1, h2, h3]

/-- The extracted items value of a `results` page. -/
theorem pageItems_results (l : List Val) :
    pageItems (.vdict [("results", .vlist l)])
      = if l.isEmpty then Val.vlist [] else Val.vlist l := by
  cases l <;> rfl

/-- Truthiness of the extracted items value of a `results` page. -/
theorem truthy_pageItems_results (l : List Val) :
    truthy (pageItems (.vdict [("results", .vlist l)])) = !l.isEmpty := by
  cases l <;> rfl

/-- Unfolding of the scan over `pagesFetch` on a non-empty page. -/
theorem scanPages_results_cons (f : Nat → List Val) (page fuel : Nat) (h : f page ≠ []) :
    scanPages (pagesFetch f) page (fuel + 1)
      = match scanPages (pagesFetch f) (page + 1) fuel with
        | .error e => .error e
        | .ok rest => .ok (f page :: rest) := by
  have hne : (f page).isEmpty = false := by simp [List.isEmpty_iff, h]
  rw [scanPages_ok_step (pagesFetch f) page fuel _ rfl, truthy_pageItems_results, hne]
  have hv : valItems (pageItems (.vdict [("results", .vlist (f page))])) = f page := by
    rw [pageItems_results, hne]
    rfl
  rw [if_neg (by simp), hv]

/-- The scan over `pagesFetch` breaks at an empty page. -/
theorem scanPages_results_nil (f : Nat → List Val) (page fuel : Nat) (h : f page = []) :
    scanPages (pagesFetch f) page (fuel + 1) = .ok [] := by
  rw [scanPages_ok_step (pagesFetch f) page fuel _ rfl, truthy_pageItems_results, h]
  simp

/-- When every page is non-empty the scan runs out of fuel after exactly
`fuel` pages. -/
theorem scanPages_full : ∀ (fuel start : Nat) (f : Nat → List Val), (∀ n, f n ≠ []) →
    ∃ l, scanPages (pagesFetch f) start fuel = .ok l ∧ l.length = fuel := by
  intro fuel
  induction fuel with
  | zero =>
      intro start f _
      exact ⟨[], by rw [scanPages], rfl⟩
  | succ n ih =>
      intro start f h
      obtain ⟨l, hl, hlen⟩ := ih (start + 1) f h
      refine ⟨f start :: l, ?_, by simp [hlen]⟩
      rw [scanPages_results_cons f start n (h start), hl]

/-- Claim C1, counterexample: the text "Photonics research equipment" contains
the spec's example negative term "photonics", yet `kw_match` returns MATCH
(via the substring "photo") — the script has no negative-pattern set, so the
claimed NO-MATCH does not hold. -/
theorem kw_match_matches_photonics :
    strContains (pyLower "Photonics research equipment") "photonics" = true
    ∧ kw_match "Photonics research equipment" = true := by
  exact ⟨by decide, by decide⟩

/-- Claim C1, amended: `kw_match` performs plain positive keyword matching:
it returns MATCH exactly when some configured keyword occurs case-insensitively
as a substring of the text; there is no negative check, so a text containing
"photonics" matches through the keyword "photo". -/
theorem kw_match_iff_keyword_substring (t : String) :
    kw_match t = true ↔ ∃ k ∈ KEYWORDS, (pyLower k).data <:+: (pyLower t).data := by
  simp [kw_match, strContains, List.any_eq_true, isSubChars_iff]

/-- Claim C2, counterexample: with a non-empty first page and a failing second
page, `main` raises and the run produces no outcome at all — the failed page
is not treated as zero items and processing does not continue. -/
theorem mainRun_aborts_on_page_error :
    mainRun .absent false false c2fetch none true = ⟨.error (), .absent⟩ := rfl

/-- Claim C2, amended: a page fetch failure (after the transport-level
retries, `fetch_page` raises and `main` has no handler) aborts the whole
run: whenever some page below the page cap fails after a prefix of non-empty
pages, the run ends in the raised error, nothing is notified, and the
persisted state is left untouched. -/
theorem mainRun_error_when_any_page_fails (fetch : Nat → Except Unit Val) (k : Nat)
    (hk : k < MAX_PAGES)
    (hok : ∀ i, i < k → ∃ d, fetch (1 + i) = .ok d ∧ truthy (pageItems d) = true)
    (herr : fetch (1 + k) = .error ())
    (file : FileState) (ig fo : Bool) (eTo : Option String) (sOk : Bool) :
    mainRun file ig fo fetch eTo sOk = ⟨.error (), file⟩ := by
  have hscan : scanPages fetch 1 MAX_PAGES = .error () :=
    scanPages_error k MAX_PAGES 1 fetch hk hok herr
  unfold mainRun
  rw [hscan]

/-- Claim C2, witness for `mainRun_error_when_any_page_fails` at a concrete
run whose second page fails. -/
theorem mainRun_error_when_any_page_fails_witness :
    mainRun .absent false false
        (fun n => if n = 1 then .ok (.vdict [("results", .vlist [.vstr "x"])]) else .error ())
        none true
      = ⟨.error (), .absent⟩ :=
  mainRun_error_when_any_page_fails
    (fun n => if n = 1 then .ok (.vdict [("results", .vlist [.vstr "x"])]) else .error ())
    1 (by decide)
    (fun i hi => by
      have h0 : i = 0 := by omega
      subst h0
      exact ⟨.vdict [("results", .vlist [.vstr "x"])], rfl, rfl⟩)
    rfl .absent false false none true

/-- Claim C3, counterexample: with `IGNORE_SEEN` set and one new match, the
run overwrites `sent_ids.json` with only the current run's identifiers: the
previously persisted identifier "OLD" is gone after the run, so persisted
identifiers are not preserved under every flag combination. -/
theorem ignore_seen_run_drops_old_ids :
    "OLD" ∈ load_seen c3file
    ∧ "OLD" ∉ load_seen (mainRun c3file true false c3fetch (some "to") true).finalFile := by
  constructor
  · decide
  · have h : (mainRun c3file true false c3fetch (some "to") true).finalFile
        = save_seen (∅ ∪ (List.map Row.id [rowOf c3item]).toFinset) := rfl
    rw [h, load_save]
    decide

/-- Claim C3, amended: without the ignore-seen flag the persisted set grows
monotonically — every identifier present before the run is still present
after it, whatever the force-all flag, the pages, and the notifier outcome;
with ignore-seen set, a saving run instead overwrites the state with only
the current run's identifiers. -/
theorem seen_file_monotone_without_ignore_seen (file : FileState) (fo : Bool)
    (fetch : Nat → Except Unit Val) (eTo : Option String) (sOk : Bool) :
    load_seen file ⊆ load_seen (mainRun file false fo fetch eTo sOk).finalFile := by
  unfold mainRun
  cases hsp : scanPages fetch 1 MAX_PAGES with
  | error e => simp [hsp]
  | ok pages =>
      simp only [hsp]
      repeat' split
      all_goals simp_all [load_save, Finset.Subset.refl, Finset.subset_union_left]

/-- Claim C4, counterexample: for a mapping with a `text` key, `normalize_text`
returns only that value; the other leaf "b" is lost, so the output is not the
join of all normalized mapping values and does not contain every leaf. -/
theorem normalize_text_drops_leaf_on_shortcut :
    normalize_text (.vdict [("text", .vstr "a"), ("other", .vstr "b")]) = "a"
    ∧ "b" ∈ leaves (.vdict [("text", .vstr "a"), ("other", .vstr "b")])
    ∧ ¬ ("b".data <:+:
          (normalize_text (.vdict [("text", .vstr "a"), ("other", .vstr "b")])).data) := by
  exact ⟨rfl, by decide, by decide⟩

/-- Claim C4, amended: `normalize_text` keeps every primitive leaf (in order
for sequences) except through the mapping shortcut: when a mapping has one of
the keys `text`/`value`/`label`/`title`/`summary` with a string value, only
that string is returned and the other leaves may be lost; otherwise every
mapping value (not its keys) is normalized and joined with a single space,
and on inputs with no shortcut anywhere every leaf is contained in the
output. -/
theorem normalize_text_leaves_spec :
    (∀ (kvs : List (String × Val)) (s : String),
        findSpecial kvs specialKeys = some s → normalize_text (.vdict kvs) = s)
    ∧ (∀ kvs : List (String × Val),
        findSpecial kvs specialKeys = none →
          normalize_text (.vdict kvs) = pyJoin " " (normVals kvs))
    ∧ (∀ vs : List Val, normalize_text (.vlist vs) = pyJoin " " (normList vs))
    ∧ (∀ v : Val, plainVal v = true →
        ∀ l ∈ leaves v, l.data <:+: (normalize_text v).data) := by
  refine ⟨?_, ?_, fun vs => rfl, leaf_contained⟩
  · intro kvs s h
    simp [normalize_text, h]
  · intro kvs h
    simp [normalize_text, h]

/-- Claim C4, witness for `normalize_text_leaves_spec` at a concrete nested
input with no shortcut. -/
theorem normalize_text_leaves_spec_witness :
    plainVal (.vlist [.vstr "a", .vdict [("k", .vint 5)]]) = true
    ∧ ("5".data <:+: (normalize_text (.vlist [.vstr "a", .vdict [("k", .vint 5)]])).data) :=
  ⟨by decide, normalize_text_leaves_spec.2.2.2 _ (by decide) "5" (by decide)⟩

/-- Claim C5, counterexample: with `EMAIL_TO` unset, `send_email` skips the
delivery and returns normally, and `main` still appends the undelivered
match's identifier to the persisted state: the matches were never delivered
(`delivered = false`) yet the persisted SeenSet changed. -/
theorem skipped_email_still_saves_seen :
    (mainRun .absent false false c5fetch none true).result = .ok ([rowOf c5item], false)
    ∧ load_seen (mainRun .absent false false c5fetch none true).finalFile
        ≠ load_seen FileState.absent := by
  constructor
  · rfl
  · have h : (mainRun .absent false false c5fetch none true).finalFile
        = save_seen (∅ ∪ (List.map Row.id [rowOf c5item]).toFinset) := rfl
    rw [h, load_save]
    decide

/-- Claim C5, amended: the persisted state does survive a *raising* notifier:
when SMTP delivery fails, `send_email` raises before returning, `save_seen`
is never reached, and the state file is unchanged, for every run in
non-force mode; but a silently skipped notification (no `EMAIL_TO`
configured) still persists the undelivered identifiers. -/
theorem failed_delivery_leaves_state_unchanged (file : FileState) (ig : Bool)
    (fetch : Nat → Except Unit Val) (addr : String) :
    (mainRun file ig false fetch (some addr) false).finalFile = file := by
  unfold mainRun
  cases hsp : scanPages fetch 1 MAX_PAGES with
  | error e => simp [hsp]
  | ok pages =>
      simp only [hsp]
      repeat' split
      all_goals simp_all [send_email]

/-- Claim C6: codes are collected and normalized by stripping non-digits
(`"79961000-8"` yields `"799610008"`, results that become empty are
discarded); `cpv_match` is true iff some extracted code starts with some
configured prefix; and a record with no extractable codes never matches. -/
theorem cpv_extraction_and_matching :
    extract_cpv (.vdict [("cpv", .vstr "79961000-8")]) = ["799610008"]
    ∧ (∀ item : Val, cpv_match item = true ↔
        ∃ code ∈ extract_cpv item, ∃ pref ∈ CPV_PREFIXES, pref.data <+: code.data)
    ∧ (∀ item : Val, extract_cpv item = [] → cpv_match item = false)
    ∧ cpv_match (.vdict [("cpv", .vstr "79961000-8")]) = true := by
  refine ⟨by decide, ?_, ?_, by decide⟩
  · intro item
    unfold cpv_match
    by_cases h : extract_cpv item = []
    · simp [h]
    · simp [h, List.any_eq_true, List.isPrefixOf_iff_prefix]
  · intro item h
    simp [cpv_match, h]

/-- Claim C6, witness for `cpv_extraction_and_matching` at a record with no
codes anywhere. -/
theorem cpv_extraction_and_matching_witness : cpv_match (.vdict []) = false :=
  cpv_extraction_and_matching.2.2.1 (.vdict []) (by decide)

/-- Claim C7: the pagination loop stops at the first page with zero items or
after `MAX_PAGES`, whichever comes first: every successful scan visits at
most `MAX_PAGES` pages; a (non-empty, non-empty, empty) page sequence yields
exactly the first two pages; and when every page is non-empty the scan stops
after exactly `MAX_PAGES` pages. -/
theorem pagination_terminates :
    (∀ (fetch : Nat → Except Unit Val) (l : List (List Val)),
        scanPages fetch 1 MAX_PAGES = .ok l → l.length ≤ MAX_PAGES)
    ∧ (∀ f : Nat → List Val, f 1 ≠ [] → f 2 ≠ [] → f 3 = [] →
        scanPages (pagesFetch f) 1 MAX_PAGES = .ok [f 1, f 2])
    ∧ (∀ f : Nat → List Val, (∀ n, f n ≠ []) →
        ∃ l, scanPages (pagesFetch f) 1 MAX_PAGES = .ok l ∧ l.length = MAX_PAGES) := by
  refine ⟨fun fetch l h => scanPages_len MAX_PAGES 1 fetch l h, ?_, ?_⟩
  · intro f h1 h2 h3
    rw [show MAX_PAGES = 39 + 1 from rfl, scanPages_results_cons f 1 39 h1]
    rw [show (39 : Nat) = 38 + 1 from rfl, scanPages_results_cons f 2 38 h2]
    rw [show (38 : Nat) = 37 + 1 from rfl, scanPages_results_nil f 3 37 h3]
  · intro f h
    exact scanPages_full MAX_PAGES 1 f h

/-- Claim C7, witness for `pagination_terminates` on the concrete page
sequence (non-empty, non-empty, empty, empty, ...). -/
theorem pagination_terminates_witness :
    scanPages (pagesFetch (fun n => if n ≤ 2 then [.vnone] else [])) 1 MAX_PAGES
      = .ok [[.vnone], [.vnone]] := by
  have h := pagination_terminates.2.1 (fun n => if n ≤ 2 then [Val.vnone] else [])
    (by simp) (by simp) (by simp)
  simpa using h

/-- Claim C8: persisting a freshly loaded seen set and loading it again gives
back the identical set, for every possible state of the persisted file
(absent, corrupt, blank, or any JSON document). -/
theorem save_load_roundtrip (f : FileState) :
    load_seen (save_seen (load_seen f)) = load_seen f :=
  load_save (load_seen f)

/-- Claim C9: in force-all mode `save_seen` is never called: the persisted
state after the run is exactly the state before it, for every fetch and
notifier outcome; consequently an identical subsequent force-all run (same
pages, same environment) returns the identical outcome, re-reporting the
same matches. -/
theorem force_all_never_persists (file : FileState) (ig : Bool)
    (fetch : Nat → Except Unit Val) (eTo : Option String) (sOk : Bool) :
    (mainRun file ig true fetch eTo sOk).finalFile = file
    ∧ mainRun ((mainRun file ig true fetch eTo sOk).finalFile) ig true fetch eTo sOk
        = mainRun file ig true fetch eTo sOk := by
  have h1 : (mainRun file ig true fetch eTo sOk).finalFile = file := by
    unfold mainRun
    cases hsp : scanPages fetch 1 MAX_PAGES with
    | error e => simp [hsp]
    | ok pages =>
        simp only [hsp]
        repeat' split
        all_goals simp_all
  exact ⟨h1, by rw [h1]⟩

/-- Claim C10: the in-memory seen set is not updated while items are
processed, so (a) the match lists of concatenated item sequences (pages) are
the concatenations of the per-sequence match lists, with the same loaded
seen set consulted throughout, and (b) a run whose single page carries the
same matching, unseen item twice reports both occurrences to the notifier. -/
theorem duplicate_items_both_reported :
    (∀ (seen : Finset String) (xs ys : List Val),
        processItems seen false (xs ++ ys)
          = ((processItems seen false xs).1 ++ (processItems seen false ys).1,
             (processItems seen false xs).2 ++ (processItems seen false ys).2))
    ∧ (∀ (file : FileState) (it : Val) (addr : String),
        itemId it ≠ "" →
        (kw_match (best_blob it) || cpv_match it) = true →
        itemId it ∉ load_seen file →
        (mainRun file false false
            (fun n => if n = 1 then .ok (.vdict [("results", .vlist [it, it])])
                      else .ok (.vdict []))
            (some addr) true).result
          = .ok ([rowOf it, rowOf it], true)) := by
  refine ⟨fun seen xs ys => processItems_append seen false xs ys, ?_⟩
  intro file it addr h1 h2 h3
  have hscan : scanPages
      (fun n => if n = 1 then .ok (.vdict [("results", .vlist [it, it])])
                else .ok (.vdict [])) 1 MAX_PAGES
      = .ok [[it, it]] := rfl
  unfold mainRun
  rw [hscan]
  have hp : processItems (load_seen file) false [it, it]
      = ([rowOf it, rowOf it], [rowOf it, rowOf it]) := by
    simp [processItems, h1, h2, h3]
  simp [hp, send_email]

/-- Claim C10, witness for `duplicate_items_both_reported`: a concrete run
whose single page repeats `c10item` notifies it twice. -/
theorem duplicate_items_both_reported_witness :
    (mainRun .absent false false
        (fun n => if n = 1 then .ok (.vdict [("results", .vlist [c10item, c10item])])
                  else .ok (.vdict []))
        (some "to") true).result
      = .ok ([rowOf c10item, rowOf c10item], true) :=
  duplicate_items_both_reported.2 .absent c10item "to" (by decide) (by decide) (by decide)
